import Mathlib

/-!
Verification of the store-liveness supporter state machine and the
schema-changer operation-generation target builder.

The supporter state machine (heartbeat merge, withdrawal sweep, support
query) is modelled from the specification: the repository snapshot holds
only its datadriven test transcript, not the handler source.  The opgen
target builder is embedded directly from `opgen` package source
(`makeTransitions`, `transitionBuildState`).
-/

namespace Spec2Proof

namespace StoreLiveness

/-- A requester identity: the pair (node identifier, store identifier). -/
abbrev StoreIdent := Nat × Nat

/-- Modelled from the spec: the per-requester support record of the
SupportState Store (`epoch`: fencing generation; `expiration`: timestamp,
zero meaning no active support).  The handler source is missing from the
snapshot; fields follow spec section 3. -/
structure SupportState where
  epoch : Nat
  expiration : Nat
deriving DecidableEq, Repr

/-- The zero-value record returned for an unknown requester. -/
def SupportState.zero : SupportState := ⟨0, 0⟩

/-- Modelled from the spec: the supporter's whole state: the single
`SupporterMeta` record (`maxWithdrawn`) plus the mapping from requester
identity to its support record, kept as an association list. -/
structure SupporterStateHandler where
  maxWithdrawn : Nat
  supportFor : List (StoreIdent × SupportState)
deriving DecidableEq, Repr

/-- Lookup in the association list; the zero-value record if absent. -/
def getSupportFor : List (StoreIdent × SupportState) → StoreIdent → SupportState
  | [], _ => SupportState.zero
  | (k, s) :: rest, r => if k = r then s else getSupportFor rest r

/-- Write to the association list: replace the first binding of the key, or
append a fresh binding when absent (lazy creation on first heartbeat). -/
def setSupportFor : List (StoreIdent × SupportState) → StoreIdent → SupportState →
    List (StoreIdent × SupportState)
  | [], r, s => [(r, s)]
  | (k, cur) :: rest, r, s =>
    if k = r then (r, s) :: rest else (k, cur) :: setSupportFor rest r s

/-- Modelled from the spec: `get(requester)` of the SupportState Store
(spec section 4.1); never fails, returns the zero-value record if absent. -/
def SupporterStateHandler.getState (h : SupporterStateHandler) (r : StoreIdent) :
    SupportState :=
  getSupportFor h.supportFor r

/-- Modelled from the spec: the heartbeat merge rule of spec section 4.2,
applied to the current stored record `(E, Exp)`:
a strictly higher epoch replaces the record wholesale, an equal epoch
max-merges the expiration, a lower epoch leaves the record unchanged. -/
def mergeSupport (cur : SupportState) (heartbeatEpoch heartbeatExpiration : Nat) :
    SupportState :=
  if cur.epoch < heartbeatEpoch then ⟨heartbeatEpoch, heartbeatExpiration⟩
  else if heartbeatEpoch = cur.epoch then
    ⟨cur.epoch, max cur.expiration heartbeatExpiration⟩
  else cur

/-- Modelled from the spec: the Heartbeat Handler (spec sections 4.2, 6).
Reads the requester's record, applies the merge rule, writes the result
back in the two non-stale cases (a stale message causes no mutation), and
returns the acknowledgement payload: the resulting stored record. -/
def SupporterStateHandler.handleHeartbeat (h : SupporterStateHandler)
    (r : StoreIdent) (heartbeatEpoch heartbeatExpiration : Nat) :
    SupporterStateHandler × SupportState :=
  let cur := h.getState r
  if heartbeatEpoch < cur.epoch then (h, cur)
  else
    let ns := mergeSupport cur heartbeatEpoch heartbeatExpiration
    ({ h with supportFor := setSupportFor h.supportFor r ns }, ns)

/-- Modelled from the spec: the per-entry withdrawal rule of spec section
4.3: an entry with nonzero expiration at or before `now` has its epoch
bumped by one and its expiration cleared; any other entry is untouched. -/
def withdrawEntry (now : Nat) (s : SupportState) : SupportState :=
  if s.expiration ≠ 0 ∧ s.expiration ≤ now then ⟨s.epoch + 1, 0⟩ else s

/-- Modelled from the spec: the Withdrawal Sweeper, `withdrawExpired(now)`
(spec sections 4.1, 4.3): withdraw every eligible entry, advance
`meta.maxWithdrawn` to `max(maxWithdrawn, now)` unconditionally, and
return the identities withdrawn. -/
def SupporterStateHandler.withdrawExpired (h : SupporterStateHandler) (now : Nat) :
    SupporterStateHandler × List StoreIdent :=
  ({ maxWithdrawn := max h.maxWithdrawn now,
     supportFor := h.supportFor.map fun p => (p.1, withdrawEntry now p.2) },
   (h.supportFor.filter fun p =>
      p.2.expiration != 0 && decide (p.2.expiration ≤ now)).map Prod.fst)

/-- Modelled from the spec: the `isSupported` query (spec section 4.4):
`(E, true)` when the stored expiration is nonzero and exceeds the caller's
`now`; `(0, false)` otherwise, hiding any nonzero floor epoch. -/
def SupporterStateHandler.isSupported (h : SupporterStateHandler) (r : StoreIdent)
    (now : Nat) : Nat × Bool :=
  let s := h.getState r
  if s.expiration ≠ 0 ∧ now < s.expiration then (s.epoch, true) else (0, false)

/-- One mutating operation against the supporter: a heartbeat or a sweep. -/
inductive SupporterOp where
  | heartbeat (r : StoreIdent) (epoch expiration : Nat)
  | withdraw (now : Nat)
deriving DecidableEq, Repr

/-- Apply one operation, keeping only the mutated state. -/
def applyOp (h : SupporterStateHandler) : SupporterOp → SupporterStateHandler
  | .heartbeat r e exp => (h.handleHeartbeat r e exp).1
  | .withdraw now => (h.withdrawExpired now).1

/-- Apply a sequence of operations in order. -/
def applyOps (h : SupporterStateHandler) : List SupporterOp → SupporterStateHandler
  | [] => h
  | op :: rest => applyOps (applyOp h op) rest

/-- Apply a sequence of withdrawal sweeps in order. -/
def applySweeps (h : SupporterStateHandler) : List Nat → SupporterStateHandler
  | [] => h
  | now :: rest => applySweeps (h.withdrawExpired now).1 rest

end StoreLiveness

namespace Opgen

/-- `scpb.Status`, as an integer code; `Status_UNKNOWN` is `0`. -/
abbrev Status := Nat

/-- `scop.Phase`, as an integer; `0` is the unset phase. -/
abbrev Phase := Nat

/-- A `transitionSpec`: the declarative description of one transition (or,
when `from_` is set and `to_` is `Status_UNKNOWN`, one equivalence mapping).
`emitFns` is kept abstract as an opaque list of tags. -/
structure TransitionSpec where
  from_ : Status
  to_ : Status
  revertible : Bool
  minPhase : Phase
  emitFns : List Nat
deriving DecidableEq, Repr

/-- A built `transition`: status pair, revertibility, optional ops-func and
minimum phase. -/
structure Transition where
  from_ : Status
  to_ : Status
  revertible : Bool
  ops : Option Unit
  minPhase : Phase
deriving DecidableEq, Repr

/-- A `targetSpec`: initial status, target status and the transition specs. -/
structure TargetSpec where
  from_ : Status
  to_ : Status
  transitionSpecs : List TransitionSpec
deriving DecidableEq, Repr

/-- `transitionBuildState`: the loop state of `makeTransitions`.  The Go
`map[scpb.Status]bool` fields are kept as lists of the statuses with a
`true` entry.  The Go field `to` is rendered `to_`. -/
structure TransitionBuildState where
  from_ : Status
  currentMinPhase : Phase
  isRevertible : Bool
  isEquivMapped : List Status
  isTo : List Status
  isFrom : List Status
deriving DecidableEq, Repr

/-- `makeTransitionBuildState(from)`. -/
def makeTransitionBuildState (f : Status) : TransitionBuildState :=
  { from_ := f
    currentMinPhase := 0
    isRevertible := true
    isEquivMapped := [f]
    isTo := []
    isFrom := [] }

/-- `(*transitionBuildState).withTransition`: validity checks in source
order, then the state update. -/
def TransitionBuildState.withTransition (tbs : TransitionBuildState)
    (s : TransitionSpec) : Except String TransitionBuildState :=
  if s.to_ = 0 then .error "invalid to_ status"
  else if tbs.isTo.contains s.to_ then
    .error "featured as to_ in a previous transition"
  else if tbs.isEquivMapped.contains s.to_ then
    .error "featured as from in a previous equivalence mapping"
  else if 0 < s.minPhase ∧ s.minPhase < tbs.currentMinPhase then
    .error "minimum phase is less than inherited minimum phase"
  else .ok
    { from_ := s.to_
      currentMinPhase :=
        if tbs.currentMinPhase < s.minPhase then s.minPhase
        else tbs.currentMinPhase
      isRevertible := tbs.isRevertible && s.revertible
      isEquivMapped := tbs.from_ :: tbs.isEquivMapped
      isTo := s.to_ :: tbs.isTo
      isFrom := tbs.from_ :: tbs.isFrom }

/-- `(*transitionBuildState).withEquivTransition`: validity checks in source
order, then the equivalence-mapping update. -/
def TransitionBuildState.withEquivTransition (tbs : TransitionBuildState)
    (s : TransitionSpec) : Except String TransitionBuildState :=
  if s.to_ ≠ 0 then .error "invalid to_ status"
  else if tbs.isTo.contains s.from_ then
    .error "featured as to_ in a previous transition"
  else if tbs.isEquivMapped.contains s.from_ then
    .error "featured as from in a previous equivalence mapping"
  else if !s.revertible then .error "must be revertible"
  else if 0 < s.minPhase then .error "must not set a minimum phase"
  else .ok { tbs with isEquivMapped := s.from_ :: tbs.isEquivMapped }

/-- The loop body of `makeTransitions`, parametrised by `makeOpsFunc`
(whose source lives outside this snapshot), returning the built
transitions together with the final build state. -/
def makeTransitionsLoop (mkOps : List Nat → Except String Unit) :
    TransitionBuildState → List TransitionSpec →
    Except String (List Transition × TransitionBuildState)
  | tbs, [] => .ok ([], tbs)
  | tbs, s :: rest =>
    if s.from_ = 0 then
      match tbs.withTransition s with
      | .error msg => .error msg
      | .ok tbs2 =>
        match (if 0 < s.emitFns.length then (mkOps s.emitFns).map some
               else .ok none) with
        | .error msg => .error msg
        | .ok ops =>
          match makeTransitionsLoop mkOps tbs2 rest with
          | .error msg => .error msg
          | .ok (ts, tbsEnd) =>
            .ok (⟨tbs.from_, s.to_, tbs2.isRevertible, ops,
                  tbs2.currentMinPhase⟩ :: ts, tbsEnd)
    else
      match tbs.withEquivTransition s with
      | .error msg => .error msg
      | .ok tbs2 =>
        match makeTransitionsLoop mkOps tbs2 rest with
        | .error msg => .error msg
        | .ok (ts, tbsEnd) =>
          .ok (⟨s.from_, tbs.from_, tbs2.isRevertible, none,
                tbs2.currentMinPhase⟩ :: ts, tbsEnd)

/-- `makeTransitions`: run the loop from `makeTransitionBuildState(spec.from)`
and check that the final status has been reached. -/
def makeTransitions (mkOps : List Nat → Except String Unit) (spec : TargetSpec) :
    Except String (List Transition) :=
  match makeTransitionsLoop mkOps (makeTransitionBuildState spec.from_)
      spec.transitionSpecs with
  | .error msg => .error msg
  | .ok (ts, tbsEnd) =>
    if tbsEnd.from_ ≠ spec.to_ then
      .error "expected final status not reached"
    else .ok ts

/-- A built `target`: its target status and transitions.  The node-iteration
closure of the Go struct is query plumbing and is not modelled. -/
structure Target where
  status : Status
  transitions : List Transition
deriving DecidableEq, Repr

/-- `makeTarget`: build the transitions, then the graph query (abstracted as
`mkQuery`, whose construction lives in the `rel` package). -/
def makeTarget (mkOps : List Nat → Except String Unit)
    (mkQuery : Except String Unit) (spec : TargetSpec) : Except String Target :=
  match makeTransitions mkOps spec with
  | .error msg => .error msg
  | .ok ts =>
    match mkQuery with
    | .error msg => .error msg
    | .ok _ => .ok ⟨spec.to_, ts⟩

/-- The status reached after following the chain of non-equivalence
transitions of a spec list (the way `tbs.from` evolves in the loop). -/
def chainEnd : Status → List TransitionSpec → Status
  | st, [] => st
  | st, s :: rest => chainEnd (if s.from_ = 0 then s.to_ else st) rest

/-- An ops-func maker that always succeeds, standing in for a concrete
`makeOpsFunc` in closed evaluations. -/
def mkOpsOk : List Nat → Except String Unit := fun _ => .ok ()

end Opgen

end Spec2Proof

namespace Spec2Proof

namespace StoreLiveness

theorem getSupportFor_setSupportFor_self (l : List (StoreIdent × SupportState))
    (r : StoreIdent) (s : SupportState) :
    getSupportFor (setSupportFor l r s) r = s := by
  induction l with
  | nil => simp [setSupportFor, getSupportFor]
  | cons p rest ih =>
    obtain ⟨k, cur⟩ := p
    by_cases hk : k = r
    · simp [setSupportFor, hk, getSupportFor]
    · simp [setSupportFor, hk, getSupportFor, ih]

theorem getSupportFor_setSupportFor_ne (l : List (StoreIdent × SupportState))
    (r r' : StoreIdent) (s : SupportState) (hne : r' ≠ r) :
    getSupportFor (setSupportFor l r s) r' = getSupportFor l r' := by
  have hrr : r ≠ r' := Ne.symm hne
  induction l with
  | nil => simp [setSupportFor, getSupportFor, hrr]
  | cons p rest ih =>
    obtain ⟨k, cur⟩ := p
    by_cases hk : k = r
    · subst hk
      simp [setSupportFor, getSupportFor, hrr]
    · simp [setSupportFor, hk, getSupportFor, ih]

theorem getSupportFor_map_withdraw (l : List (StoreIdent × SupportState))
    (now : Nat) (r : StoreIdent) :
    getSupportFor (l.map fun p => (p.1, withdrawEntry now p.2)) r
      = withdrawEntry now (getSupportFor l r) := by
  induction l with
  | nil => simp [getSupportFor, withdrawEntry, SupportState.zero]
  | cons p rest ih =>
    obtain ⟨k, s⟩ := p
    by_cases hk : k = r <;> simp [getSupportFor, hk, ih]

theorem getState_withdrawExpired (h : SupporterStateHandler) (now : Nat)
    (r : StoreIdent) :
    ((h.withdrawExpired now).1).getState r = withdrawEntry now (h.getState r) := by
  simpa [SupporterStateHandler.withdrawExpired, SupporterStateHandler.getState]
    using getSupportFor_map_withdraw h.supportFor now r

theorem getState_handleHeartbeat_self (h : SupporterStateHandler) (r : StoreIdent)
    (e exp : Nat) :
    ((h.handleHeartbeat r e exp).1).getState r = mergeSupport (h.getState r) e exp := by
  by_cases hlt : e < (getSupportFor h.supportFor r).epoch
  · have hne : ¬ e = (getSupportFor h.supportFor r).epoch := Nat.ne_of_lt hlt
    have hnlt : ¬ (getSupportFor h.supportFor r).epoch < e := Nat.lt_asymm hlt
    simp [SupporterStateHandler.handleHeartbeat, SupporterStateHandler.getState,
      hlt, mergeSupport, hnlt, hne]
  · simp [SupporterStateHandler.handleHeartbeat, SupporterStateHandler.getState,
      hlt, getSupportFor_setSupportFor_self]

theorem getState_handleHeartbeat_ne (h : SupporterStateHandler) (r r' : StoreIdent)
    (e exp : Nat) (hne : r' ≠ r) :
    ((h.handleHeartbeat r e exp).1).getState r' = h.getState r' := by
  by_cases hlt : e < (getSupportFor h.supportFor r).epoch
  · simp [SupporterStateHandler.handleHeartbeat, SupporterStateHandler.getState, hlt]
  · simp [SupporterStateHandler.handleHeartbeat, SupporterStateHandler.getState,
      hlt, getSupportFor_setSupportFor_ne _ _ _ _ hne]

end StoreLiveness

end Spec2Proof

namespace Spec2Proof

namespace StoreLiveness

theorem mergeSupport_epoch_le (cur : SupportState) (e exp : Nat) :
    cur.epoch ≤ (mergeSupport cur e exp).epoch := by
  simp only [mergeSupport]
  split
  · next hlt => exact Nat.le_of_lt hlt
  · split
    · exact Nat.le_refl _
    · exact Nat.le_refl _

theorem mergeSupport_expiration_le (cur : SupportState) (e exp : Nat) :
    (mergeSupport cur e exp).epoch = cur.epoch →
    cur.expiration ≤ (mergeSupport cur e exp).expiration := by
  simp only [mergeSupport]
  split
  · next hlt => intro heq; exact absurd heq (Nat.ne_of_gt hlt)
  · split
    · intro _; exact Nat.le_max_left _ _
    · intro _; exact Nat.le_refl _

theorem withdrawEntry_epoch_le (now : Nat) (s : SupportState) :
    s.epoch ≤ (withdrawEntry now s).epoch := by
  simp only [withdrawEntry]
  split
  · exact Nat.le_succ _
  · exact Nat.le_refl _

theorem withdrawEntry_expiration_le (now : Nat) (s : SupportState) :
    (withdrawEntry now s).epoch = s.epoch →
    s.expiration ≤ (withdrawEntry now s).expiration := by
  simp only [withdrawEntry]
  split
  · intro heq; exact absurd heq (Nat.succ_ne_self _)
  · intro _; exact Nat.le_refl _

theorem withdrawEntry_idem (n1 n2 : Nat) (s : SupportState) :
    withdrawEntry n1 s = s ∨ withdrawEntry n2 (withdrawEntry n1 s) = withdrawEntry n1 s := by
  by_cases hc : s.expiration ≠ 0 ∧ s.expiration ≤ n1
  · right
    simp [withdrawEntry, hc]
  · left
    simp only [withdrawEntry]
    rw [if_neg hc]

theorem getState_applyOp_epoch_le (h : SupporterStateHandler) (op : SupporterOp)
    (r : StoreIdent) :
    (h.getState r).epoch ≤ ((applyOp h op).getState r).epoch := by
  cases op with
  | heartbeat r0 e exp =>
    by_cases hr : r = r0
    · subst hr
      simp only [applyOp]
      rw [getState_handleHeartbeat_self]
      exact mergeSupport_epoch_le _ _ _
    · simp only [applyOp]
      rw [getState_handleHeartbeat_ne h r0 r e exp hr]
  | withdraw now =>
    simp only [applyOp]
    rw [getState_withdrawExpired]
    exact withdrawEntry_epoch_le _ _

theorem getState_applyOp_expiration_le (h : SupporterStateHandler) (op : SupporterOp)
    (r : StoreIdent) :
    ((applyOp h op).getState r).epoch = (h.getState r).epoch →
    (h.getState r).expiration ≤ ((applyOp h op).getState r).expiration := by
  cases op with
  | heartbeat r0 e exp =>
    by_cases hr : r = r0
    · subst hr
      simp only [applyOp]
      rw [getState_handleHeartbeat_self]
      exact mergeSupport_expiration_le _ _ _
    · simp only [applyOp]
      rw [getState_handleHeartbeat_ne h r0 r e exp hr]
      intro _; exact Nat.le_refl _
  | withdraw now =>
    simp only [applyOp]
    rw [getState_withdrawExpired]
    exact withdrawEntry_expiration_le _ _

theorem getState_applyOps_epoch_le (h : SupporterStateHandler)
    (ops : List SupporterOp) (r : StoreIdent) :
    (h.getState r).epoch ≤ ((applyOps h ops).getState r).epoch := by
  induction ops generalizing h with
  | nil => exact Nat.le_refl _
  | cons op rest ih =>
    simp only [applyOps]
    exact Nat.le_trans (getState_applyOp_epoch_le h op r) (ih (applyOp h op))

theorem getState_applyOps_expiration_le (h : SupporterStateHandler)
    (ops : List SupporterOp) (r : StoreIdent) :
    ((applyOps h ops).getState r).epoch = (h.getState r).epoch →
    (h.getState r).expiration ≤ ((applyOps h ops).getState r).expiration := by
  induction ops generalizing h with
  | nil => intro _; exact Nat.le_refl _
  | cons op rest ih =>
    simp only [applyOps]
    intro heq
    have h1 := getState_applyOp_epoch_le h op r
    have h2 := getState_applyOps_epoch_le (applyOp h op) rest r
    have e1 : ((applyOp h op).getState r).epoch = (h.getState r).epoch := by omega
    have e2 : ((applyOps (applyOp h op) rest).getState r).epoch
        = ((applyOp h op).getState r).epoch := by omega
    exact Nat.le_trans (getState_applyOp_expiration_le h op r e1)
      (ih (applyOp h op) e2)

end StoreLiveness

end Spec2Proof

namespace Spec2Proof

namespace StoreLiveness

/-- C1: for every heartbeat against the stored state `(E, Exp)`, a strictly
higher heartbeat epoch makes the stored state `(heartbeatEpoch,
heartbeatExpiration)` with the new expiration fully replacing the old one,
an equal epoch makes it `(E, max(Exp, heartbeatExpiration))`, and a lower
epoch leaves the stored state unchanged. -/
theorem heartbeat_merge_rule (h : SupporterStateHandler) (r : StoreIdent)
    (e exp : Nat) :
    ((h.getState r).epoch < e →
      ((h.handleHeartbeat r e exp).1).getState r = ⟨e, exp⟩) ∧
    (e = (h.getState r).epoch →
      ((h.handleHeartbeat r e exp).1).getState r
        = ⟨(h.getState r).epoch, max (h.getState r).expiration exp⟩) ∧
    (e < (h.getState r).epoch → (h.handleHeartbeat r e exp).1 = h) := by
  refine ⟨?_, ?_, ?_⟩
  · intro hgt
    rw [getState_handleHeartbeat_self]
    simp [mergeSupport, hgt]
  · intro heq
    have hnlt : ¬ (h.getState r).epoch < e := by omega
    rw [getState_handleHeartbeat_self]
    simp [mergeSupport, hnlt, heq]
  · intro hlt
    simp [SupporterStateHandler.handleHeartbeat, hlt]

/-- C2: a sweep `withdrawExpired(now)` withdraws a stored entry exactly when
its expiration is nonzero and at most `now`; on withdrawal the epoch is
incremented by exactly one and the expiration cleared to zero, and any
other entry is left unchanged. -/
theorem withdrawExpired_entry_rule (h : SupporterStateHandler) (now : Nat)
    (r : StoreIdent) :
    ((h.withdrawExpired now).1).getState r
      = if (h.getState r).expiration ≠ 0 ∧ (h.getState r).expiration ≤ now
          then ⟨(h.getState r).epoch + 1, 0⟩ else h.getState r := by
  rw [getState_withdrawExpired, withdrawEntry]

/-- C3: `isSupported` answers `active = true` exactly when the stored
expiration is nonzero and exceeds the query's `now`; whenever it answers
`false` the reported epoch is `0`, whatever epoch is stored internally. -/
theorem isSupported_rule (h : SupporterStateHandler) (r : StoreIdent) (now : Nat) :
    ((h.isSupported r now).2 = true ↔
      (h.getState r).expiration ≠ 0 ∧ now < (h.getState r).expiration) ∧
    ((h.isSupported r now).2 = false → (h.isSupported r now).1 = 0) := by
  by_cases hc : (h.getState r).expiration ≠ 0 ∧ now < (h.getState r).expiration <;>
    simp [SupporterStateHandler.isSupported, hc]

/-- C4: over every sequence of heartbeat and withdrawal operations, a
requester's stored epoch is non-decreasing; its stored expiration is
non-decreasing while the epoch stays fixed; and a heartbeat that strictly
raises the epoch resets the expiration to exactly the heartbeat's value. -/
theorem epoch_expiration_monotone (h : SupporterStateHandler)
    (ops : List SupporterOp) (r : StoreIdent) :
    ((h.getState r).epoch ≤ ((applyOps h ops).getState r).epoch) ∧
    (((applyOps h ops).getState r).epoch = (h.getState r).epoch →
      (h.getState r).expiration ≤ ((applyOps h ops).getState r).expiration) ∧
    (∀ e exp, (h.getState r).epoch < e →
      ((applyOp h (.heartbeat r e exp)).getState r).expiration = exp) := by
  refine ⟨getState_applyOps_epoch_le h ops r,
    getState_applyOps_expiration_le h ops r, ?_⟩
  intro e exp hgt
  simp only [applyOp]
  rw [getState_handleHeartbeat_self]
  simp [mergeSupport, hgt]

/-- C5: every sweep sets `maxWithdrawn` to `max(maxWithdrawn, now)`
unconditionally, and over every sequence of sweeps `maxWithdrawn` never
regresses. -/
theorem maxWithdrawn_monotone (h : SupporterStateHandler) (now : Nat)
    (nows : List Nat) :
    ((h.withdrawExpired now).1).maxWithdrawn = max h.maxWithdrawn now ∧
    h.maxWithdrawn ≤ (applySweeps h nows).maxWithdrawn := by
  refine ⟨rfl, ?_⟩
  induction nows generalizing h with
  | nil => exact Nat.le_refl _
  | cons n rest ih =>
    simp only [applySweeps]
    exact Nat.le_trans (Nat.le_max_left _ _) (ih (h.withdrawExpired n).1)

/-- C6: the acknowledgement returned for every handled heartbeat carries
exactly the resulting stored record of the requester's entry after the
merge. -/
theorem heartbeat_ack_reflects_state (h : SupporterStateHandler) (r : StoreIdent)
    (e exp : Nat) :
    (h.handleHeartbeat r e exp).2 = ((h.handleHeartbeat r e exp).1).getState r := by
  rw [getState_handleHeartbeat_self]
  by_cases hlt : e < (getSupportFor h.supportFor r).epoch
  · have hne : ¬ e = (getSupportFor h.supportFor r).epoch := Nat.ne_of_lt hlt
    have hnlt : ¬ (getSupportFor h.supportFor r).epoch < e := Nat.lt_asymm hlt
    simp [SupporterStateHandler.handleHeartbeat, SupporterStateHandler.getState,
      hlt, mergeSupport, hnlt, hne]
  · simp [SupporterStateHandler.handleHeartbeat, SupporterStateHandler.getState, hlt]

/-- C7: a stale heartbeat (epoch below the stored floor) leaves the whole
supporter state literally unchanged, and a duplicate or regressive
heartbeat at the stored epoch leaves every stored entry unchanged; neither
is an error (the handler is total and always returns an acknowledgement). -/
theorem stale_heartbeat_no_mutation (h : SupporterStateHandler) (r : StoreIdent)
    (e exp : Nat) :
    (e < (h.getState r).epoch → (h.handleHeartbeat r e exp).1 = h) ∧
    (e = (h.getState r).epoch → exp ≤ (h.getState r).expiration →
      ∀ r', ((h.handleHeartbeat r e exp).1).getState r' = h.getState r') := by
  constructor
  · intro hlt
    simp [SupporterStateHandler.handleHeartbeat, hlt]
  · intro heq hle r'
    by_cases hr : r' = r
    · subst hr
      rw [getState_handleHeartbeat_self]
      have hnlt : ¬ (h.getState r').epoch < e := by omega
      simp [mergeSupport, hnlt, heq, Nat.max_eq_left hle]
    · exact getState_handleHeartbeat_ne h r r' e exp hr

/-- C8: a second sweep at a later-or-equal `now` leaves every entry the
first sweep withdrew untouched, the second sweep only advances
`maxWithdrawn`, and re-running a sweep at the same `now` is a no-op on the
whole supporter state. -/
theorem sweep_idempotent (h : SupporterStateHandler) (n1 n2 : Nat) (r : StoreIdent) :
    (n1 ≤ n2 → (h.getState r).expiration ≠ 0 → (h.getState r).expiration ≤ n1 →
      ((((h.withdrawExpired n1).1).withdrawExpired n2).1).getState r
        = ((h.withdrawExpired n1).1).getState r) ∧
    ((((h.withdrawExpired n1).1).withdrawExpired n2).1).maxWithdrawn
      = max ((h.withdrawExpired n1).1).maxWithdrawn n2 ∧
    (((h.withdrawExpired n1).1).withdrawExpired n1).1 = (h.withdrawExpired n1).1 := by
  refine ⟨?_, rfl, ?_⟩
  · intro _ hnz hle
    rw [getState_withdrawExpired, getState_withdrawExpired]
    have hw : withdrawEntry n1 (h.getState r) = ⟨(h.getState r).epoch + 1, 0⟩ := by
      simp [withdrawEntry, hnz, hle]
    rw [hw]
    simp [withdrawEntry]
  · cases h with
    | mk m l =>
      simp only [SupporterStateHandler.withdrawExpired, SupporterStateHandler.mk.injEq]
      constructor
      · rw [Nat.max_assoc, Nat.max_self]
      · rw [List.map_map]
        apply List.map_congr_left
        intro p _
        simp only [Function.comp]
        rcases withdrawEntry_idem n1 n1 p.2 with hcase | hcase
        · rw [hcase, hcase]
        · rw [hcase]

end StoreLiveness

end Spec2Proof

namespace Spec2Proof

namespace Opgen

theorem withTransition_ok (tbs : TransitionBuildState) (s : TransitionSpec)
    (tbs2 : TransitionBuildState) (hok : tbs.withTransition s = .ok tbs2) :
    tbs2.from_ = s.to_ ∧ tbs.currentMinPhase ≤ tbs2.currentMinPhase := by
  simp only [TransitionBuildState.withTransition] at hok
  split at hok
  · cases hok
  · split at hok
    · cases hok
    · split at hok
      · cases hok
      · split at hok
        · cases hok
        · cases hok
          refine ⟨rfl, ?_⟩
          dsimp only
          split
          · next hlt => exact Nat.le_of_lt hlt
          · exact Nat.le_refl _

theorem withEquivTransition_ok (tbs : TransitionBuildState) (s : TransitionSpec)
    (tbs2 : TransitionBuildState) (hok : tbs.withEquivTransition s = .ok tbs2) :
    tbs2.from_ = tbs.from_ ∧ tbs2.currentMinPhase = tbs.currentMinPhase := by
  simp only [TransitionBuildState.withEquivTransition] at hok
  split at hok
  · cases hok
  · split at hok
    · cases hok
    · split at hok
      · cases hok
      · split at hok
        · cases hok
        · split at hok
          · cases hok
          · cases hok
            exact ⟨rfl, rfl⟩

theorem withTransition_phase_guard (tbs : TransitionBuildState) (s : TransitionSpec)
    (h1 : 0 < s.minPhase) (h2 : s.minPhase < tbs.currentMinPhase)
    (tbs2 : TransitionBuildState) :
    tbs.withTransition s ≠ .ok tbs2 := by
  intro hok
  simp only [TransitionBuildState.withTransition] at hok
  split at hok
  · cases hok
  · split at hok
    · cases hok
    · split at hok
      · cases hok
      · split at hok
        · cases hok
        · next hguard => exact hguard ⟨h1, h2⟩

theorem makeTransitionsLoop_spec (mkOps : List Nat → Except String Unit)
    (specs : List TransitionSpec) : ∀ tbs ts tbsEnd,
    makeTransitionsLoop mkOps tbs specs = .ok (ts, tbsEnd) →
    (tbsEnd.from_ = chainEnd tbs.from_ specs ∧
     (∀ t ∈ ts, tbs.currentMinPhase ≤ t.minPhase) ∧
     List.Pairwise (fun a b : Transition => a.minPhase ≤ b.minPhase) ts) := by
  induction specs with
  | nil =>
    intro tbs ts tbsEnd hok
    simp only [makeTransitionsLoop] at hok
    cases hok
    exact ⟨rfl, fun t ht => absurd ht (List.not_mem_nil t), List.Pairwise.nil⟩
  | cons s rest ih =>
    intro tbs ts tbsEnd hok
    simp only [makeTransitionsLoop] at hok
    split at hok
    · -- non-equivalence transition: s.from_ = 0
      next hf =>
      split at hok
      · cases hok
      · next tbs2 hw =>
        split at hok
        · cases hok
        · next ops hops =>
          split at hok
          · cases hok
          · next x2 ts2 tbsEnd2 hrest =>
            rw [Except.ok.injEq, Prod.mk.injEq] at hok
            obtain ⟨hts, hend⟩ := hok
            subst hts
            subst hend
            obtain ⟨hfrom, hphase⟩ := withTransition_ok tbs s tbs2 hw
            obtain ⟨ihEnd, ihAll, ihPw⟩ := ih tbs2 ts2 tbsEnd2 hrest
            refine ⟨?_, ?_, ?_⟩
            · rw [ihEnd, hfrom]
              simp [chainEnd, hf]
            · intro t ht
              rcases List.mem_cons.mp ht with hth | htt
              · subst hth
                exact hphase
              · exact Nat.le_trans hphase (ihAll t htt)
            · rw [List.pairwise_cons]
              exact ⟨fun t htt => ihAll t htt, ihPw⟩
    · -- equivalence mapping: s.from_ ≠ 0
      next hf =>
      split at hok
      · cases hok
      · next tbs2 hw =>
        split at hok
        · cases hok
        · next x2 ts2 tbsEnd2 hrest =>
          rw [Except.ok.injEq, Prod.mk.injEq] at hok
          obtain ⟨hts, hend⟩ := hok
          subst hts
          subst hend
          obtain ⟨hfrom, hphase⟩ := withEquivTransition_ok tbs s tbs2 hw
          obtain ⟨ihEnd, ihAll, ihPw⟩ := ih tbs2 ts2 tbsEnd2 hrest
          refine ⟨?_, ?_, ?_⟩
          · rw [ihEnd, hfrom]
            simp [chainEnd, hf]
          · intro t ht
            rcases List.mem_cons.mp ht with hth | htt
            · subst hth
              exact Nat.le_of_eq hphase.symm
            · exact Nat.le_trans (Nat.le_of_eq hphase.symm) (ihAll t htt)
          · rw [List.pairwise_cons]
            exact ⟨fun t htt => ihAll t htt, ihPw⟩

end Opgen

end Spec2Proof

namespace Spec2Proof

namespace Opgen

/-- C9: whenever `makeTransitions` returns without error, the chain of
non-equivalence transitions walked by the loop ends at the spec's target
status; a chain ending elsewhere always produces an error. -/
theorem makeTransitions_final_status (mkOps : List Nat → Except String Unit)
    (spec : TargetSpec) (ret : List Transition)
    (hok : makeTransitions mkOps spec = .ok ret) :
    chainEnd spec.from_ spec.transitionSpecs = spec.to_ := by
  simp only [makeTransitions] at hok
  split at hok
  · cases hok
  · next x ts tbsEnd hloop =>
    split at hok
    · cases hok
    · next hne =>
      have hfrom := (makeTransitionsLoop_spec mkOps spec.transitionSpecs
        (makeTransitionBuildState spec.from_) ts tbsEnd hloop).1
      have : tbsEnd.from_ = spec.to_ := not_ne_iff.mp hne
      rw [← this, hfrom]
      rfl

/-- C9 witness: a concrete one-transition spec from status 1 to status 2
builds without error, and its chain indeed ends at the target status. -/
theorem makeTransitions_final_status_witness :
    makeTransitions mkOpsOk ⟨1, 2, [⟨0, 2, true, 0, []⟩]⟩
      = .ok [⟨1, 2, true, none, 0⟩] ∧
    chainEnd 1 [⟨0, 2, true, 0, []⟩] = 2 :=
  ⟨by rfl,
   makeTransitions_final_status mkOpsOk ⟨1, 2, [⟨0, 2, true, 0, []⟩]⟩
     [⟨1, 2, true, none, 0⟩] (by rfl)⟩

/-- C10: every successfully built target has its transitions' minimum
phases non-decreasing in order; `withTransition` rejects any spec whose
positive minimum phase is below the inherited current minimum, and on
success never lowers the current minimum. -/
theorem target_minPhase_monotone :
    (∀ (mkOps : List Nat → Except String Unit) (mkQuery : Except String Unit)
        (spec : TargetSpec) (t : Target),
      makeTarget mkOps mkQuery spec = .ok t →
      List.Pairwise (fun a b : Transition => a.minPhase ≤ b.minPhase)
        t.transitions) ∧
    (∀ (tbs : TransitionBuildState) (s : TransitionSpec),
      0 < s.minPhase → s.minPhase < tbs.currentMinPhase →
      ∀ tbs2, tbs.withTransition s ≠ .ok tbs2) ∧
    (∀ (tbs : TransitionBuildState) (s : TransitionSpec)
        (tbs2 : TransitionBuildState),
      tbs.withTransition s = .ok tbs2 →
      tbs.currentMinPhase ≤ tbs2.currentMinPhase) := by
  refine ⟨?_, withTransition_phase_guard,
    fun tbs s tbs2 hok => (withTransition_ok tbs s tbs2 hok).2⟩
  intro mkOps mkQuery spec t hok
  simp only [makeTarget] at hok
  split at hok
  · cases hok
  · next x ts hmk =>
    split at hok
    · cases hok
    · rw [Except.ok.injEq] at hok
      subst hok
      simp only [makeTransitions] at hmk
      split at hmk
      · cases hmk
      · next x2 ts2 tbsEnd hloop =>
        split at hmk
        · cases hmk
        · rw [Except.ok.injEq] at hmk
          subst hmk
          exact (makeTransitionsLoop_spec mkOps spec.transitionSpecs
            (makeTransitionBuildState spec.from_) ts2 tbsEnd hloop).2.2

end Opgen

end Spec2Proof

namespace Spec2Proof

namespace StoreLiveness

-- The datadriven transcript replayed against the model: two heartbeats at
-- epoch 1, a failed withdrawal at 199, a successful one at 201, support
-- regained at epoch 2, then a stale and a regressive heartbeat absorbed.
example :
    ((((((⟨0, []⟩ : SupporterStateHandler).handleHeartbeat (2, 2) 1
        100).1.handleHeartbeat (2, 2) 1 200).1.withdrawExpired
        199).1.withdrawExpired 201).1)
      = ⟨201, [((2, 2), ⟨2, 0⟩)]⟩ := by decide

example :
    (((⟨201, [((2, 2), ⟨2, 0⟩)]⟩ : SupporterStateHandler).handleHeartbeat (2, 2) 2
        300).1.handleHeartbeat (2, 2) 1 301).2 = ⟨2, 300⟩ := by decide

example :
    (⟨201, [((2, 2), ⟨2, 300⟩)]⟩ : SupporterStateHandler).isSupported (2, 2) 201
      = (2, true) := by decide

end StoreLiveness

end Spec2Proof
